import Mathlib

/-!
Verification of the timer registry and expiration watchdog of the
`capacitor-live-activities` plugin.

The iOS side (`src/ios/Plugin/LiveActivitiesPlugin.swift`) keeps two
dictionaries — `activeTimers : [String: Activity]` (attributes plus current
content state) and `timerMetadata : [String: TimerMetadata]` (end time,
haptic/sound flags, `hasExpired`) — plus a repeating 1-second check timer.
The web side (`src/web.ts`) keeps a `Map<string, ActiveTimer>` plus one
`setInterval` callback per timer.

Times are modelled as integer Unix milliseconds (`Millis := Int`).  Swift
`Date` values in the plugin always originate from millisecond timestamps
(`Date(timeIntervalSince1970: endTime / 1000)`), so the millisecond grid is
exact.  Dictionaries are modelled as association lists with unique keys;
`Dictionary` iteration visits each key exactly once and `dict[k] = v`
rewrites the value at `k`, so a per-entry value map is the exact meaning of
the Swift `for (id, var metadata) in timerMetadata { ... timerMetadata[id] =
metadata }` loop.  Fire-and-forget collaborator calls (haptics, sound,
event emission to JS) are modelled as an emitted `Effect` list.
-/

namespace LiveActivities

abbrev Millis := Int

abbrev CustomData := List (String × String)

/-- First-match lookup in an association list (`dict[k]`). -/
def getVal {α : Type} (k : String) : List (String × α) → Option α
  | [] => none
  | (k', v) :: rest => if k' = k then some v else getVal k rest

/-- Dictionary assignment `dict[k] = v`: replace the first entry with key
`k`, or append a fresh entry. -/
def setKey {α : Type} (k : String) (v : α) : List (String × α) → List (String × α)
  | [] => [(k, v)]
  | (k', v') :: rest => if k' = k then (k, v) :: rest else (k', v') :: setKey k v rest

/-- Dictionary removal `dict.removeValue(forKey: k)` (on unique-key lists
this removes the single entry for `k`). -/
def delKey {α : Type} (k : String) : List (String × α) → List (String × α)
  | [] => []
  | (k', v) :: rest => if k' = k then delKey k rest else (k', v) :: delKey k rest

/-- Apply `f` to every value of the association list, keeping keys. -/
def mapVal {α : Type} (f : α → α) : List (String × α) → List (String × α)
  | [] => []
  | (k, v) :: rest => (k, f v) :: mapVal f rest

/-- Apply `f` to the value stored at key `k`, leaving other entries alone. -/
def mapEntry {α : Type} (k : String) (f : α → α) : List (String × α) → List (String × α)
  | [] => []
  | (k', v) :: rest => if k' = k then (k', f v) :: mapEntry k f rest else (k', v) :: mapEntry k f rest

def keysOf {α : Type} (l : List (String × α)) : List String := l.map Prod.fst

/-- `VetDrugsTimerAttributes`: static attributes fixed when the activity
starts. -/
structure ActivityAttributes where
  id : String
  timerType : String
  icon : String
  accentColorHex : String
deriving DecidableEq

/-- `VetDrugsTimerAttributes.ContentState`: the mutable content of an
activity. -/
structure ContentState where
  title : String
  subtitle : String
  detail : String
  endTime : Millis
  customData : CustomData
deriving DecidableEq

/-- An `Activity<VetDrugsTimerAttributes>` as stored in `activeTimers`. -/
structure ActivityRecord where
  attributes : ActivityAttributes
  content : ContentState
deriving DecidableEq

/-- `LiveActivitiesPlugin.TimerMetadata`. -/
structure TimerMetadata where
  endTime : Millis
  hapticOnExpire : Bool
  soundOnExpire : Bool
  hasExpired : Bool
deriving DecidableEq

/-- The plugin's mutable state: both dictionaries plus whether the
repeating expiration-check timer is scheduled (`expirationCheckTimer`
non-nil). -/
structure PluginState where
  activeTimers : List (String × ActivityRecord)
  timerMetadata : List (String × TimerMetadata)
  watchdogRunning : Bool
deriving DecidableEq

/-- Payload of a `notifyListeners` call.  Fields that a given emission site
does not put into its dictionary are `none`. -/
structure EventPayload where
  id : String
  eventType : String
  type : Option String
  title : Option String
  customData : Option CustomData
  timestamp : Millis
deriving DecidableEq

inductive DismissalPolicy where
  | immediate
  | after (date : Millis)
  | default
deriving DecidableEq

/-- Fire-and-forget collaborator requests issued by the plugin. -/
inductive Effect where
  | haptic
  | sound
  | notify (event : String) (payload : EventPayload)
  | endActivity (id : String) (finalContent : ContentState) (policy : DismissalPolicy)
deriving DecidableEq

/-- `iconForType`. -/
def iconForType (t : String) : String :=
  if t = "cri" then "syringe.fill"
  else if t = "cpr" then "heart.fill"
  else if t = "fluid" then "drop.fill"
  else if t = "anesthesia" then "lungs.fill"
  else "timer"

/-- `colorForType`. -/
def colorForType (t : String) : String :=
  if t = "cri" then "#007AFF"
  else if t = "cpr" then "#FF3B30"
  else if t = "fluid" then "#34C759"
  else if t = "anesthesia" then "#AF52DE"
  else "#8E8E93"

/-- A `startTimer` bridge call: each `call.getX` is an `Option`. -/
structure StartCall where
  id : Option String
  title : Option String
  endTime : Option Millis
  type : Option String
  subtitle : Option String
  detail : Option String
  icon : Option String
  accentColor : Option String
  customData : Option CustomData
  hapticOnExpire : Option Bool
  soundOnExpire : Option Bool
deriving DecidableEq

/-- Outcome of a `startTimer` call: `call.reject(msg)` or
`call.resolve(["success": b, "id": i, "error": e?])`. -/
inductive StartResult where
  | rejected (msg : String)
  | resolved (success : Bool) (id : String) (error : Option String)
deriving DecidableEq

def isStartRejected : StartResult → Bool
  | .rejected _ => true
  | .resolved _ _ _ => false

/-- `LiveActivitiesPlugin.startTimer`.  `available` models the
`#available(iOS 16.2, *)` guard; `requestError` models the outcome of the
external `Activity.request` (`none` = success, `some err` = thrown error).
Note the source stores `timerMetadata[id]` before attempting
`Activity.request`, so the metadata entry exists even on request failure. -/
def startTimer (available : Bool) (requestError : Option String) (call : StartCall)
    (s : PluginState) : StartResult × PluginState :=
  if available = false then
    (.resolved false (call.id.getD "") (some "Live Activities require iOS 16.2 or later"), s)
  else
    match call.id with
    | none => (.rejected "Timer ID is required", s)
    | some id =>
      match call.title with
      | none => (.rejected "Timer title is required", s)
      | some title =>
        match call.endTime with
        | none => (.rejected "Timer endTime is required", s)
        | some endTime =>
          let timerType := call.type.getD "generic"
          let subtitle := call.subtitle
          let detail := call.detail
          let icon := call.icon.getD (iconForType timerType)
          let accentColor := call.accentColor.getD (colorForType timerType)
          let customData := call.customData.getD []
          let hapticOnExpire := call.hapticOnExpire.getD true
          let soundOnExpire := call.soundOnExpire.getD true
          let md : TimerMetadata :=
            { endTime := endTime, hapticOnExpire := hapticOnExpire,
              soundOnExpire := soundOnExpire, hasExpired := false }
          let s1 := { s with timerMetadata := setKey id md s.timerMetadata }
          match requestError with
          | some err => (.resolved false id (some err), s1)
          | none =>
            let attrs : ActivityAttributes :=
              { id := id, timerType := timerType, icon := icon,
                accentColorHex := accentColor }
            let initialState : ContentState :=
              { title := title, subtitle := subtitle.getD "",
                detail := detail.getD "", endTime := endTime, customData := customData }
            let record : ActivityRecord := { attributes := attrs, content := initialState }
            (.resolved true id none,
             { s1 with activeTimers := setKey id record s1.activeTimers,
                       watchdogRunning := true })

/-- An `updateTimer` bridge call. -/
structure UpdateCall where
  id : Option String
  title : Option String
  subtitle : Option String
  detail : Option String
  endTime : Option Millis
  customData : Option CustomData
deriving DecidableEq

/-- Outcome of a call that resolves with no data or rejects. -/
inductive SimpleResult where
  | rejected (msg : String)
  | resolved
deriving DecidableEq

/-- `LiveActivitiesPlugin.updateTimer`: merges the supplied fields over the
activity's current content state and pushes the merged state to the
activity.  It does not touch `timerMetadata`. -/
def updateTimer (available : Bool) (call : UpdateCall) (s : PluginState) :
    SimpleResult × PluginState :=
  if available = false then (.rejected "Live Activities require iOS 16.2 or later", s)
  else
    match call.id with
    | none => (.rejected "Timer ID is required", s)
    | some id =>
      match getVal id s.activeTimers with
      | none => (.rejected ("Timer not found: " ++ id), s)
      | some activity =>
        let c := activity.content
        let updated : ContentState :=
          { title := call.title.getD c.title,
            subtitle := call.subtitle.getD c.subtitle,
            detail := call.detail.getD c.detail,
            endTime := call.endTime.getD c.endTime,
            customData := call.customData.getD c.customData }
        (.resolved,
         { s with activeTimers := setKey id { activity with content := updated } s.activeTimers })

/-- An `endTimer` bridge call. -/
structure EndCall where
  id : Option String
  dismissalPolicy : Option String
  dismissAfterSeconds : Option Millis
  finalMessage : Option String
deriving DecidableEq

/-- `LiveActivitiesPlugin.endTimer`: ends the activity with the requested
dismissal policy, removes the record from both dictionaries, stops the
check timer when the registry becomes empty and emits `timerDismissed`. -/
def endTimer (available : Bool) (now : Millis) (call : EndCall) (s : PluginState) :
    SimpleResult × List Effect × PluginState :=
  if available = false then (.rejected "Live Activities require iOS 16.2 or later", [], s)
  else
    match call.id with
    | none => (.rejected "Timer ID is required", [], s)
    | some id =>
      match getVal id s.activeTimers with
      | none => (.rejected ("Timer not found: " ++ id), [], s)
      | some activity =>
        let finalState :=
          match call.finalMessage with
          | some message =>
            ({ title := message, subtitle := activity.content.subtitle, detail := "",
               endTime := now, customData := activity.content.customData } : ContentState)
          | none => activity.content
        let policy :=
          match call.dismissalPolicy.getD "default" with
          | "immediate" => DismissalPolicy.immediate
          | "after" => DismissalPolicy.after (now + (call.dismissAfterSeconds.getD 0) * 1000)
          | _ => DismissalPolicy.default
        let acts := delKey id s.activeTimers
        let s' : PluginState :=
          { activeTimers := acts,
            timerMetadata := delKey id s.timerMetadata,
            watchdogRunning := if acts.isEmpty then false else s.watchdogRunning }
        (.resolved,
         [Effect.endActivity id finalState policy,
          Effect.notify "timerDismissed"
            { id := id, eventType := "dismissed", type := none, title := none,
              customData := none, timestamp := now }],
         s')

/-- `LiveActivitiesPlugin.endAllTimers`: counts, ends every activity,
clears both dictionaries and stops the check timer; resolves with
`endedCount` and never rejects.  On an unavailable platform it resolves
`endedCount = 0` without touching state. -/
def endAllTimers (available : Bool) (s : PluginState) : Nat × PluginState :=
  if available = false then (0, s)
  else (s.activeTimers.length,
        { activeTimers := [], timerMetadata := [], watchdogRunning := false })

/-- One element of the array resolved by `getActiveTimers`. -/
structure ReportedTimer where
  id : String
  type : String
  title : String
  subtitle : String
  detail : String
  endTime : Millis
  remainingSeconds : Int
  expired : Bool
  startedAt : Millis
  customData : CustomData
deriving DecidableEq

/-- One entry of the `getActiveTimers` response.  The source computes
`remainingSeconds = max(0, endTime − now)` in (fractional) seconds, reports
`Int(remainingSeconds)`, reports `expired` as `remainingSeconds <= 0`
(on the unclamped-at-truncation value, i.e. `endTime ≤ now`), and reports
`startedAt` as `endTime − remainingSeconds`, all on the millisecond grid. -/
def reportTimer (now : Millis) (id : String) (a : ActivityRecord) : ReportedTimer :=
  let rem : Millis := max 0 (a.content.endTime - now)
  { id := id
    type := a.attributes.timerType
    title := a.content.title
    subtitle := a.content.subtitle
    detail := a.content.detail
    endTime := a.content.endTime
    remainingSeconds := Int.fdiv rem 1000
    expired := decide (rem ≤ 0)
    startedAt := a.content.endTime - rem
    customData := a.content.customData }

/-- `LiveActivitiesPlugin.getActiveTimers`. -/
def getActiveTimers (available : Bool) (now : Millis) (s : PluginState) : List ReportedTimer :=
  if available then s.activeTimers.map (fun p => reportTimer now p.1 p.2) else []

/-- The loop-body condition of `checkForExpiredTimers`: not yet handled and
`endTime <= now`. -/
def freshlyExpired (now : Millis) (md : TimerMetadata) : Bool :=
  !md.hasExpired && decide (md.endTime ≤ now)

/-- Metadata rewrite done by one scan for one entry. -/
def expireStep (now : Millis) (md : TimerMetadata) : TimerMetadata :=
  if freshlyExpired now md then { md with hasExpired := true } else md

/-- The dictionary passed to `notifyListeners("timerExpired", ...)` inside
`checkForExpiredTimers`: only `id`, `eventType` and `timestamp`. -/
def expiredEventPayload (now : Millis) (id : String) : EventPayload :=
  { id := id, eventType := "expired", type := none, title := none,
    customData := none, timestamp := now }

/-- Side effects dispatched by one scan for one entry. -/
def expireEffects (now : Millis) (id : String) (md : TimerMetadata) : List Effect :=
  if freshlyExpired now md then
    (if md.hapticOnExpire then [Effect.haptic] else []) ++
    (if md.soundOnExpire then [Effect.sound] else []) ++
    [Effect.notify "timerExpired" (expiredEventPayload now id)]
  else []

/-- `updateActivityToComplete`'s content rewrite. -/
def completeContent (now : Millis) (c : ContentState) : ContentState :=
  { title := c.title ++ " - Complete", subtitle := c.subtitle,
    detail := "Timer finished", endTime := now, customData := c.customData }

/-- `updateActivityToComplete id`: rewrite the activity's content if the
id is registered, otherwise do nothing (the `guard let ... else return`). -/
def updateActivityToComplete (now : Millis) (id : String)
    (acts : List (String × ActivityRecord)) : List (String × ActivityRecord) :=
  mapEntry id (fun a => { a with content := completeContent now a.content }) acts

/-- Concatenated effects of a scan over a metadata snapshot. -/
def allEffects (f : String → TimerMetadata → List Effect) :
    List (String × TimerMetadata) → List Effect
  | [] => []
  | (k, v) :: rest => f k v ++ allEffects f rest

/-- `LiveActivitiesPlugin.checkForExpiredTimers`: iterate the
`timerMetadata` snapshot; each entry whose end time has passed and whose
`hasExpired` is still false has its flag set, dispatches haptic/sound per
its flags, emits `timerExpired` and has its activity content rewritten to
the "Complete" presentation. -/
def checkForExpiredTimers (now : Millis) (s : PluginState) : PluginState × List Effect :=
  ({ s with
      timerMetadata := mapVal (expireStep now) s.timerMetadata,
      activeTimers :=
        ((s.timerMetadata.filter (fun p => freshlyExpired now p.2)).map Prod.fst).foldl
          (fun acc id => updateActivityToComplete now id acc) s.activeTimers },
   allEffects (expireEffects now) s.timerMetadata)

/-! ### Web implementation (`src/web.ts`, `LiveActivitiesWeb`) -/

/-- `StartTimerOptions` (web): `id`, `type`, `title`, `endTime` are
required by the TypeScript interface, the rest optional. -/
structure WebStartOptions where
  id : String
  type : String
  title : String
  subtitle : Option String
  detail : Option String
  endTime : Millis
  icon : Option String
  accentColor : Option String
  hapticOnExpire : Option Bool
  soundOnExpire : Option Bool
  customData : Option CustomData
deriving DecidableEq

/-- `ActiveTimer` as stored in the web `timers` map. -/
structure WebTimer where
  id : String
  type : String
  title : String
  subtitle : Option String
  detail : Option String
  endTime : Millis
  remainingSeconds : Int
  expired : Bool
  startedAt : Millis
  customData : Option CustomData
deriving DecidableEq

/-- `LiveActivitiesWeb` state: the `timers` map plus, per registered
interval, the `StartTimerOptions` captured by the interval's closure. -/
structure WebState where
  timers : List (String × WebTimer)
  intervals : List (String × WebStartOptions)
deriving DecidableEq

/-- `LiveActivitiesWeb.startTimer`: stores the mock timer with
`remainingSeconds = Math.floor((endTime - Date.now()) / 1000)`,
`expired = false`, `startedAt = Date.now()`, registers the 1-second
interval and resolves with success. -/
def webStartTimer (now : Millis) (options : WebStartOptions) (s : WebState) :
    StartResult × WebState :=
  let timer : WebTimer :=
    { id := options.id, type := options.type, title := options.title,
      subtitle := options.subtitle, detail := options.detail,
      endTime := options.endTime,
      remainingSeconds := Int.fdiv (options.endTime - now) 1000,
      expired := false, startedAt := now, customData := options.customData }
  (.resolved true options.id (none),
   { timers := setKey options.id timer s.timers,
     intervals := setKey options.id options s.intervals })

/-- One firing of the interval callback registered by
`LiveActivitiesWeb.startTimer` for id `tid`: recompute
`remainingSeconds`; when it first reaches `<= 0`, set `expired` and emit
`timerExpired` with the `id`/`type`/`title`/`customData` captured from the
original `options` closure. -/
def webTick (tid : String) (now : Millis) (s : WebState) : WebState × List Effect :=
  match getVal tid s.intervals with
  | none => (s, [])
  | some options =>
    match getVal tid s.timers with
    | none => (s, [])
    | some t =>
      let r := Int.fdiv (t.endTime - now) 1000
      if r ≤ 0 ∧ t.expired = false then
        ({ s with timers := setKey tid { t with remainingSeconds := r, expired := true } s.timers },
         [Effect.notify "timerExpired"
            { id := options.id, eventType := "expired", type := some options.type,
              title := some options.title, customData := options.customData,
              timestamp := now }])
      else
        ({ s with timers := setKey tid { t with remainingSeconds := r } s.timers }, [])

/-- `UpdateTimerOptions` (web): `id` required, the rest optional. -/
structure WebUpdateOptions where
  id : String
  title : Option String
  subtitle : Option String
  detail : Option String
  endTime : Option Millis
  customData : Option CustomData
deriving DecidableEq

/-- `LiveActivitiesWeb.updateTimer`: throws on an unknown id; otherwise
overwrites each supplied field, and when `endTime` is supplied also
recomputes `remainingSeconds` and sets
`expired = remainingSeconds <= 0`. -/
def webUpdateTimer (now : Millis) (options : WebUpdateOptions) (s : WebState) :
    Except String WebState :=
  match getVal options.id s.timers with
  | none => .error ("Timer not found: " ++ options.id)
  | some t0 =>
    let t1 := match options.title with
      | some v => { t0 with title := v }
      | none => t0
    let t2 := match options.subtitle with
      | some v => { t1 with subtitle := some v }
      | none => t1
    let t3 := match options.detail with
      | some v => { t2 with detail := some v }
      | none => t2
    let t4 := match options.endTime with
      | some e =>
        let r := Int.fdiv (e - now) 1000
        { t3 with endTime := e, remainingSeconds := r, expired := decide (r ≤ 0) }
      | none => t3
    let t5 := match options.customData with
      | some cd => { t4 with customData := some cd }
      | none => t4
    .ok { s with timers := setKey options.id t5 s.timers }

/-- `LiveActivitiesWeb.endAllTimers`: clears every interval and every
timer, resolving with the previous timer count. -/
def webEndAllTimers (s : WebState) : Nat × WebState :=
  (s.timers.length, { timers := [], intervals := [] })

/-- Refresh done per timer by `LiveActivitiesWeb.getActiveTimers`:
`remainingSeconds = Math.floor((endTime - Date.now()) / 1000)` (no
clamping) and `expired = remainingSeconds <= 0`. -/
def webRefreshTimer (now : Millis) (t : WebTimer) : WebTimer :=
  let r := Int.fdiv (t.endTime - now) 1000
  { t with remainingSeconds := r, expired := decide (r ≤ 0) }

/-- `LiveActivitiesWeb.getActiveTimers`: mutates every stored timer with
the refreshed derived fields, then returns copies. -/
def webGetActiveTimers (now : Millis) (s : WebState) : List WebTimer × WebState :=
  let timers' := mapVal (webRefreshTimer now) s.timers
  (timers'.map Prod.snd, { s with timers := timers' })

/-! ### Operation traces over the iOS registry -/

/-- Operations interleaved against the iOS registry after some point:
watchdog scan ticks and caller `updateTimer` calls. -/
inductive Op where
  | scan (now : Millis)
  | update (call : UpdateCall)
deriving DecidableEq

def applyOp (s : PluginState) : Op → PluginState × List Effect
  | .scan now => checkForExpiredTimers now s
  | .update call => ((updateTimer true call s).2, [])

def runOps (s : PluginState) : List Op → PluginState × List Effect
  | [] => (s, [])
  | op :: ops =>
    let r := applyOp s op
    let r' := runOps r.1 ops
    (r'.1, r.2 ++ r'.2)

/-- Number of `timerExpired` notifications for id `tid` in an effect
trace. -/
def expiredCount (tid : String) : List Effect → Nat
  | [] => 0
  | Effect.notify ev p :: rest =>
      (if ev = "timerExpired" ∧ p.id = tid then 1 else 0) + expiredCount tid rest
  | _ :: rest => expiredCount tid rest

/-- The registry's `hasExpired` flag for `tid` (false when absent). -/
def expiredFlag (tid : String) (s : PluginState) : Bool :=
  match getVal tid s.timerMetadata with
  | some md => md.hasExpired
  | none => false

/-! ### Concrete states used to evaluate the code -/

def emptyState : PluginState :=
  { activeTimers := [], timerMetadata := [], watchdogRunning := false }

/-- A `startTimer` call supplying only the required fields. -/
def basicStart (id title : String) (endTime : Millis) : StartCall :=
  { id := some id, title := some title, endTime := some endTime, type := none,
    subtitle := none, detail := none, icon := none, accentColor := none,
    customData := none, hapticOnExpire := none, soundOnExpire := none }

def stC1 : StartCall := basicStart "t1" "Fentanyl CRI" 5000

def updC1 : UpdateCall :=
  { id := some "t1", title := none, subtitle := none, detail := none,
    endTime := some 10000, customData := none }

/-- State after `startTimer(id:"t1", endTime:5000)` followed by
`updateTimer(id:"t1", endTime:10000)` issued at t=2000 (before the old
end time has passed). -/
def sC1 : PluginState := (updateTimer true updC1 (startTimer true none stC1 emptyState).2).2

def stC2 : StartCall :=
  { basicStart "t2" "CPR" 5000 with type := some "cpr", customData := some [("patient", "Max")] }

def sC2 : PluginState := (startTimer true none stC2 emptyState).2

def sC5 : PluginState := (startTimer true none (basicStart "t5" "Fluids" 10000) emptyState).2

def wst3 : WebStartOptions :=
  { id := "t1", type := "generic", title := "T", subtitle := none, detail := none,
    endTime := 1000, icon := none, accentColor := none, hapticOnExpire := none,
    soundOnExpire := none, customData := none }

/-- Web state after `startTimer(id:"t1", endTime:1000)` at t=0 and one
interval tick at t=2000: the timer is registered and `expired = true`
(one `timerExpired` already emitted at that tick). -/
def wC3 : WebState := (webTick "t1" 2000 (webStartTimer 0 wst3 ⟨[], []⟩).2).1

def wupd3 : WebUpdateOptions :=
  { id := "t1", title := none, subtitle := none, detail := none,
    endTime := some 10000, customData := none }

/-- `wC3` after `updateTimer(id:"t1", endTime:10000)` at t=2000. -/
def wC3b : WebState := ((webUpdateTimer 2000 wupd3 wC3).toOption).getD ⟨[], []⟩

def wst6 : WebStartOptions :=
  { id := "t6", type := "generic", title := "S", subtitle := none, detail := none,
    endTime := 0, icon := none, accentColor := none, hapticOnExpire := none,
    soundOnExpire := none, customData := none }

def wC6 : WebState := (webStartTimer 0 wst6 ⟨[], []⟩).2

/-! ### Association-list lemmas -/

theorem getVal_setKey_self {α : Type} (k : String) (v : α) (l : List (String × α)) :
    getVal k (setKey k v l) = some v := by
  induction l with
  | nil => simp [setKey, getVal]
  | cons p rest ih =>
    obtain ⟨k', v'⟩ := p
    by_cases h : k' = k
    · simp [setKey, getVal, h]
    · simp [setKey, getVal, h, ih]

theorem getVal_setKey_ne {α : Type} {k k' : String} (h : k' ≠ k) (v : α)
    (l : List (String × α)) : getVal k (setKey k' v l) = getVal k l := by
  induction l with
  | nil => simp [setKey, getVal, h]
  | cons p rest ih =>
    obtain ⟨k₀, v₀⟩ := p
    have hne : k ≠ k' := fun hh => h hh.symm
    by_cases h0 : k₀ = k'
    · subst h0
      simp [setKey, getVal, h, hne]
    · by_cases h1 : k₀ = k <;> simp [setKey, getVal, h0, h1, hne, ih]

theorem getVal_mapVal {α : Type} (f : α → α) (k : String) (l : List (String × α)) :
    getVal k (mapVal f l) = (getVal k l).map f := by
  induction l with
  | nil => simp [mapVal, getVal]
  | cons p rest ih =>
    obtain ⟨k₀, v₀⟩ := p
    by_cases h : k₀ = k <;> simp [mapVal, getVal, h, ih]

theorem getVal_eq_none_of_not_mem {α : Type} {k : String} {l : List (String × α)}
    (h : k ∉ keysOf l) : getVal k l = none := by
  induction l with
  | nil => rfl
  | cons p rest ih =>
    obtain ⟨k₀, v₀⟩ := p
    simp only [keysOf, List.map_cons, List.mem_cons] at h
    push_neg at h
    have hne : k₀ ≠ k := fun hh => h.1 hh.symm
    simp [getVal, hne, ih (by simpa [keysOf] using h.2)]

theorem mem_keysOf_of_getVal {α : Type} {k : String} {l : List (String × α)} {v : α}
    (h : getVal k l = some v) : k ∈ keysOf l := by
  by_contra hk
  rw [getVal_eq_none_of_not_mem hk] at h
  exact Option.noConfusion h

theorem keysOf_mapVal {α : Type} (f : α → α) (l : List (String × α)) :
    keysOf (mapVal f l) = keysOf l := by
  induction l with
  | nil => rfl
  | cons p rest ih =>
    obtain ⟨k₀, v₀⟩ := p
    simp [mapVal, keysOf] at ih ⊢
    exact ih

theorem keysOf_mapEntry {α : Type} (k : String) (f : α → α) (l : List (String × α)) :
    keysOf (mapEntry k f l) = keysOf l := by
  induction l with
  | nil => rfl
  | cons p rest ih =>
    obtain ⟨k₀, v₀⟩ := p
    by_cases h : k₀ = k
    · simp [mapEntry, keysOf, h] at ih ⊢
      exact ih
    · simp [mapEntry, keysOf, h] at ih ⊢
      exact ih

theorem mem_keysOf_setKey {α : Type} {k' k : String} {v : α} {l : List (String × α)}
    (h : k' ∈ keysOf (setKey k v l)) : k' = k ∨ k' ∈ keysOf l := by
  induction l with
  | nil =>
    simp [setKey, keysOf] at h
    exact Or.inl h
  | cons p rest ih =>
    obtain ⟨k₀, v₀⟩ := p
    by_cases h0 : k₀ = k
    · simp [setKey, keysOf, h0] at h
      rcases h with h | h
      · exact Or.inl h
      · exact Or.inr (by simp [keysOf, h])
    · simp [setKey, keysOf, h0] at h
      rcases h with h | h
      · exact Or.inr (by simp [keysOf, h])
      · rcases ih (by simpa [keysOf] using h) with h' | h'
        · exact Or.inl h'
        · exact Or.inr (by simp [keysOf] at h' ⊢; exact Or.inr h')

theorem not_mem_keysOf_delKey {α : Type} (k : String) (l : List (String × α)) :
    k ∉ keysOf (delKey k l) := by
  induction l with
  | nil => simp [delKey, keysOf]
  | cons p rest ih =>
    obtain ⟨k₀, v₀⟩ := p
    by_cases h : k₀ = k <;> simp [delKey, keysOf, h] at ih ⊢
    · exact ih
    · exact ⟨fun hh => h hh.symm, ih⟩

theorem mem_setKey_self {α : Type} (k : String) (v : α) (l : List (String × α)) :
    (k, v) ∈ setKey k v l := by
  induction l with
  | nil => simp [setKey]
  | cons p rest ih =>
    obtain ⟨k₀, v₀⟩ := p
    by_cases h : k₀ = k <;> simp [setKey, h]
    · exact Or.inr ih

/-! ### Effect-trace lemmas -/

theorem expiredCount_append (tid : String) (a b : List Effect) :
    expiredCount tid (a ++ b) = expiredCount tid a + expiredCount tid b := by
  induction a with
  | nil => simp [expiredCount]
  | cons e rest ih =>
    cases e with
    | notify ev p =>
      simp only [List.cons_append, expiredCount, List.append_eq]
      rw [ih]
      omega
    | haptic => simp [expiredCount, ih]
    | sound => simp [expiredCount, ih]
    | endActivity i c p => simp [expiredCount, ih]

theorem expiredCount_expireEffects (tid : String) (now : Millis) (id : String)
    (md : TimerMetadata) :
    expiredCount tid (expireEffects now id md) =
      if id = tid ∧ freshlyExpired now md = true then 1 else 0 := by
  unfold expireEffects
  by_cases hf : freshlyExpired now md = true
  · simp only [hf, if_true]
    by_cases hh : md.hapticOnExpire <;> by_cases hs : md.soundOnExpire <;>
      by_cases hid : id = tid <;>
        simp [hh, hs, hid, expiredCount, expiredEventPayload]
  · simp [hf, expiredCount]

theorem allEffects_mem {f : String → TimerMetadata → List Effect}
    {l : List (String × TimerMetadata)} {p : String × TimerMetadata} {x : Effect}
    (hp : p ∈ l) (hx : x ∈ f p.1 p.2) : x ∈ allEffects f l := by
  induction l with
  | nil => cases hp
  | cons q rest ih =>
    obtain ⟨k, v⟩ := q
    rcases List.mem_cons.mp hp with h | h
    · subst h
      exact List.mem_append.mpr (Or.inl hx)
    · exact List.mem_append.mpr (Or.inr (ih h))

theorem expiredCount_allEffects_of_not_mem (tid : String) (now : Millis)
    (l : List (String × TimerMetadata)) (h : tid ∉ keysOf l) :
    expiredCount tid (allEffects (expireEffects now) l) = 0 := by
  induction l with
  | nil => rfl
  | cons p rest ih =>
    obtain ⟨k, v⟩ := p
    simp only [keysOf, List.map_cons, List.mem_cons] at h
    push_neg at h
    have hne : k ≠ tid := fun hh => h.1 hh.symm
    rw [allEffects, expiredCount_append, expiredCount_expireEffects]
    simp [hne, ih (by simpa [keysOf] using h.2)]

theorem expiredCount_allEffects (tid : String) (now : Millis)
    (l : List (String × TimerMetadata)) (hnd : (keysOf l).Nodup) :
    expiredCount tid (allEffects (expireEffects now) l) =
      match getVal tid l with
      | some md => if freshlyExpired now md = true then 1 else 0
      | none => 0 := by
  induction l with
  | nil => rfl
  | cons p rest ih =>
    obtain ⟨k, v⟩ := p
    simp only [keysOf, List.map_cons, List.nodup_cons] at hnd
    rw [allEffects, expiredCount_append, expiredCount_expireEffects]
    by_cases hk : k = tid
    · subst hk
      rw [expiredCount_allEffects_of_not_mem k now rest (by simpa [keysOf] using hnd.1)]
      simp [getVal]
    · rw [ih (by simpa [keysOf] using hnd.2)]
      simp [getVal, hk]

/-! ### Scan and operation lemmas -/

theorem scan_timerMetadata (now : Millis) (s : PluginState) :
    (checkForExpiredTimers now s).1.timerMetadata = mapVal (expireStep now) s.timerMetadata := rfl

theorem scan_effects (now : Millis) (s : PluginState) :
    (checkForExpiredTimers now s).2 = allEffects (expireEffects now) s.timerMetadata := rfl

theorem keysOf_foldl_complete (now : Millis) (ids : List String)
    (acts : List (String × ActivityRecord)) :
    keysOf (ids.foldl (fun acc id => updateActivityToComplete now id acc) acts) = keysOf acts := by
  induction ids generalizing acts with
  | nil => rfl
  | cons i rest ih => rw [List.foldl_cons, ih, updateActivityToComplete, keysOf_mapEntry]

theorem scan_keysOf_activeTimers (now : Millis) (s : PluginState) :
    keysOf (checkForExpiredTimers now s).1.activeTimers = keysOf s.activeTimers :=
  keysOf_foldl_complete now _ s.activeTimers

theorem expireStep_of_hasExpired {now : Millis} {md : TimerMetadata}
    (h : md.hasExpired = true) : expireStep now md = md := by
  simp [expireStep, freshlyExpired, h]

theorem expireStep_hasExpired_of_fresh {now : Millis} {md : TimerMetadata}
    (h : freshlyExpired now md = true) : (expireStep now md).hasExpired = true := by
  simp [expireStep, h]

theorem expireStep_of_not_fresh {now : Millis} {md : TimerMetadata}
    (h : freshlyExpired now md = false) : expireStep now md = md := by
  simp [expireStep, h]

theorem expiredFlag_scan (tid : String) (now : Millis) (s : PluginState) :
    expiredFlag tid (checkForExpiredTimers now s).1 =
      match getVal tid s.timerMetadata with
      | some md => (expireStep now md).hasExpired
      | none => false := by
  unfold expiredFlag
  rw [scan_timerMetadata, getVal_mapVal]
  cases getVal tid s.timerMetadata <;> rfl

theorem expiredCount_scan (tid : String) (now : Millis) (s : PluginState)
    (hnd : (keysOf s.timerMetadata).Nodup) :
    expiredCount tid (checkForExpiredTimers now s).2 =
      match getVal tid s.timerMetadata with
      | some md => if freshlyExpired now md = true then 1 else 0
      | none => 0 := by
  rw [scan_effects]
  exact expiredCount_allEffects tid now s.timerMetadata hnd

theorem updateTimer_noId (call : UpdateCall) (s : PluginState) (hid : call.id = none) :
    updateTimer true call s = (.rejected "Timer ID is required", s) := by
  simp [updateTimer, hid]

theorem updateTimer_notFound (call : UpdateCall) (s : PluginState) (tid : String)
    (hid : call.id = some tid) (hget : getVal tid s.activeTimers = none) :
    updateTimer true call s = (.rejected ("Timer not found: " ++ tid), s) := by
  simp [updateTimer, hid, hget]

/-- The `updatedState` built by `updateTimer`: each field is the call's
value when supplied, otherwise the current state's value. -/
def mergedContent (call : UpdateCall) (c : ContentState) : ContentState :=
  { title := call.title.getD c.title,
    subtitle := call.subtitle.getD c.subtitle,
    detail := call.detail.getD c.detail,
    endTime := call.endTime.getD c.endTime,
    customData := call.customData.getD c.customData }

theorem updateTimer_found (call : UpdateCall) (s : PluginState) (tid : String)
    (act : ActivityRecord) (hid : call.id = some tid)
    (hget : getVal tid s.activeTimers = some act) :
    updateTimer true call s =
      (.resolved,
       { s with activeTimers :=
           setKey tid { act with content := mergedContent call act.content } s.activeTimers }) := by
  simp [updateTimer, hid, hget, mergedContent]

theorem updateTimer_timerMetadata (available : Bool) (call : UpdateCall) (s : PluginState) :
    ((updateTimer available call s).2).timerMetadata = s.timerMetadata := by
  cases available with
  | false => rfl
  | true =>
    cases hid : call.id with
    | none => rw [updateTimer_noId call s hid]
    | some tid =>
      cases hget : getVal tid s.activeTimers with
      | none => rw [updateTimer_notFound call s tid hid hget]
      | some act => rw [updateTimer_found call s tid act hid hget]

theorem updateTimer_not_mem_activeTimers (call : UpdateCall) (s : PluginState) (tid : String)
    (ha : tid ∉ keysOf s.activeTimers) :
    tid ∉ keysOf ((updateTimer true call s).2).activeTimers := by
  cases hid : call.id with
  | none =>
    rw [updateTimer_noId call s hid]
    exact ha
  | some tid' =>
    cases hget : getVal tid' s.activeTimers with
    | none =>
      rw [updateTimer_notFound call s tid' hid hget]
      exact ha
    | some act =>
      rw [updateTimer_found call s tid' act hid hget]
      intro hmem
      rcases mem_keysOf_setKey hmem with h | h
      · exact ha (h ▸ mem_keysOf_of_getVal hget)
      · exact ha h

theorem applyOp_keysOf_metadata (s : PluginState) (op : Op) :
    keysOf (applyOp s op).1.timerMetadata = keysOf s.timerMetadata := by
  cases op with
  | scan now => rw [applyOp, scan_timerMetadata, keysOf_mapVal]
  | update call => rw [applyOp, updateTimer_timerMetadata]

theorem runOps_cons (s : PluginState) (op : Op) (ops : List Op) :
    runOps s (op :: ops) =
      ((runOps (applyOp s op).1 ops).1,
        (applyOp s op).2 ++ (runOps (applyOp s op).1 ops).2) := rfl

theorem applyOp_update_effects (s : PluginState) (call : UpdateCall) :
    (applyOp s (Op.update call)).2 = [] := rfl

theorem expiredFlag_update (tid : String) (call : UpdateCall) (s : PluginState) :
    expiredFlag tid (applyOp s (Op.update call)).1 = expiredFlag tid s := by
  unfold expiredFlag
  rw [applyOp, updateTimer_timerMetadata]

theorem applyOp_scan (s : PluginState) (now : Millis) :
    applyOp s (Op.scan now) = checkForExpiredTimers now s := rfl

theorem runOps_avoiding (tid : String) (ops : List Op) (s : PluginState)
    (hm : tid ∉ keysOf s.timerMetadata) (ha : tid ∉ keysOf s.activeTimers) :
    expiredCount tid (runOps s ops).2 = 0 ∧
    tid ∉ keysOf (runOps s ops).1.timerMetadata ∧
    tid ∉ keysOf (runOps s ops).1.activeTimers := by
  induction ops generalizing s with
  | nil => exact ⟨rfl, hm, ha⟩
  | cons op ops ih =>
    have hm1 : tid ∉ keysOf (applyOp s op).1.timerMetadata := by
      rw [applyOp_keysOf_metadata]
      exact hm
    have ha1 : tid ∉ keysOf (applyOp s op).1.activeTimers := by
      cases op with
      | scan now =>
        rw [applyOp_scan, scan_keysOf_activeTimers]
        exact ha
      | update call => exact updateTimer_not_mem_activeTimers call s tid ha
    have hc1 : expiredCount tid (applyOp s op).2 = 0 := by
      cases op with
      | scan now =>
        rw [applyOp_scan, scan_effects]
        exact expiredCount_allEffects_of_not_mem tid now s.timerMetadata hm
      | update call => rfl
    obtain ⟨hc2, hm2, ha2⟩ := ih (applyOp s op).1 hm1 ha1
    rw [runOps_cons]
    exact ⟨by rw [expiredCount_append, hc1, hc2], hm2, ha2⟩

theorem getActiveTimers_mem_id {now : Millis} {s : PluginState} {r : ReportedTimer}
    (h : r ∈ getActiveTimers true now s) : r.id ∈ keysOf s.activeTimers := by
  unfold getActiveTimers at h
  rw [if_pos rfl] at h
  rcases List.mem_map.mp h with ⟨p, hp, hr⟩
  have hid : r.id = p.1 := by
    rw [← hr]
    simp [reportTimer]
  rw [hid]
  exact List.mem_map_of_mem Prod.fst hp

theorem endTimer_found (call : EndCall) (s : PluginState) (tid : String)
    (act : ActivityRecord) (now : Millis) (hid : call.id = some tid)
    (hget : getVal tid s.activeTimers = some act) :
    (endTimer true now call s).2.2 =
      { activeTimers := delKey tid s.activeTimers,
        timerMetadata := delKey tid s.timerMetadata,
        watchdogRunning :=
          if (delKey tid s.activeTimers).isEmpty then false else s.watchdogRunning } := by
  simp [endTimer, hid, hget]

/-! ### Claim theorems -/

/-- C3 (amended): over any sequence of iOS watchdog scans and
`updateTimer` calls, once the registry's `hasExpired` flag for an id is
true no subsequent operation resets it to false and no further
`timerExpired` event is emitted for that id; and in total the watchdog
emits `timerExpired` at most once for any id.  (The web implementation's
`updateTimer` with a supplied `endTime` is excluded: it recomputes
`expired` from the new end time and can reset it to false, see the
counterexample.) -/
theorem C3_expired_monotone_and_at_most_once (tid : String) (ops : List Op)
    (s : PluginState) (hnd : (keysOf s.timerMetadata).Nodup) :
    (expiredFlag tid s = true →
        expiredCount tid (runOps s ops).2 = 0 ∧
        expiredFlag tid (runOps s ops).1 = true) ∧
    expiredCount tid (runOps s ops).2 ≤ 1 := by
  induction ops generalizing s with
  | nil => exact ⟨fun h => ⟨rfl, h⟩, by simp [runOps, expiredCount]⟩
  | cons op ops ih =>
    have hnd1 : (keysOf (applyOp s op).1.timerMetadata).Nodup := by
      rw [applyOp_keysOf_metadata]
      exact hnd
    obtain ⟨iha, ihb⟩ := ih (applyOp s op).1 hnd1
    rw [runOps_cons]
    simp only [expiredCount_append]
    have parta : expiredFlag tid s = true →
        expiredCount tid (applyOp s op).2 +
          expiredCount tid (runOps (applyOp s op).1 ops).2 = 0 ∧
        expiredFlag tid (runOps (applyOp s op).1 ops).1 = true := by
      intro hflag
      cases op with
      | update call =>
        have hfl1 : expiredFlag tid (applyOp s (Op.update call)).1 = true := by
          rw [expiredFlag_update]
          exact hflag
        obtain ⟨hc, hf⟩ := iha hfl1
        exact ⟨by rw [applyOp_update_effects, hc]; rfl, hf⟩
      | scan now =>
        unfold expiredFlag at hflag
        cases hget : getVal tid s.timerMetadata with
        | none =>
          rw [hget] at hflag
          exact absurd hflag (by simp)
        | some md =>
          rw [hget] at hflag
          have hflag' : md.hasExpired = true := hflag
          have hfresh : freshlyExpired now md = false := by
            simp [freshlyExpired, hflag']
          have hc1 : expiredCount tid (applyOp s (Op.scan now)).2 = 0 := by
            rw [applyOp_scan, expiredCount_scan tid now s hnd, hget]
            show (if freshlyExpired now md = true then 1 else 0) = 0
            simp [hfresh]
          have hfl1 : expiredFlag tid (applyOp s (Op.scan now)).1 = true := by
            rw [applyOp_scan]
            simp only [expiredFlag_scan, hget, expireStep_of_not_fresh hfresh]
            exact hflag'
          obtain ⟨hc2, hf⟩ := iha hfl1
          exact ⟨by rw [hc1, hc2], hf⟩
    refine ⟨parta, ?_⟩
    by_cases hflag : expiredFlag tid s = true
    · obtain ⟨hc, _⟩ := parta hflag
      omega
    · cases op with
      | update call =>
        rw [applyOp_update_effects]
        simpa [expiredCount] using ihb
      | scan now =>
        cases hget : getVal tid s.timerMetadata with
        | none =>
          have hc1 : expiredCount tid (applyOp s (Op.scan now)).2 = 0 := by
            rw [applyOp_scan, expiredCount_scan tid now s hnd, hget]
          rw [hc1]
          simpa using ihb
        | some md =>
          have hmd : md.hasExpired = false := by
            unfold expiredFlag at hflag
            rw [hget] at hflag
            simpa using hflag
          by_cases hfr : freshlyExpired now md = true
          · have hc1 : expiredCount tid (applyOp s (Op.scan now)).2 = 1 := by
              rw [applyOp_scan, expiredCount_scan tid now s hnd, hget]
              show (if freshlyExpired now md = true then 1 else 0) = 1
              simp [hfr]
            have hfl1 : expiredFlag tid (applyOp s (Op.scan now)).1 = true := by
              rw [applyOp_scan]
              simp only [expiredFlag_scan, hget]
              exact expireStep_hasExpired_of_fresh hfr
            obtain ⟨hc2, _⟩ := iha hfl1
            omega
          · have hfr' : freshlyExpired now md = false := by
              cases hq : freshlyExpired now md with
              | false => rfl
              | true => exact absurd hq hfr
            have hc1 : expiredCount tid (applyOp s (Op.scan now)).2 = 0 := by
              rw [applyOp_scan, expiredCount_scan tid now s hnd, hget]
              show (if freshlyExpired now md = true then 1 else 0) = 0
              simp [hfr']
            rw [hc1]
            simpa using ihb

/-- C3 counterexample: in the web implementation, after timer `t1`
(endTime 1000, started at t=0) has expired at the tick at t=2000
(`expired = true`), `updateTimer({id:"t1", endTime:10000})` at t=2000 sets
`expired` back to `false` — contradicting the claim that no caller update
resets the expired flag. -/
theorem C3_web_update_resets_expired :
    (getVal "t1" wC3.timers).map (fun t => t.expired) = some true ∧
    ((webUpdateTimer 2000 wupd3 wC3).toOption.bind fun w =>
        (getVal "t1" w.timers).map fun t => t.expired) = some false ∧
    expiredCount "t1" (webTick "t1" 11000 wC3b).2 = 1 := by
  decide

theorem C3_witness :
    (keysOf ((checkForExpiredTimers 6000 sC2).1).timerMetadata).Nodup ∧
    ((expiredFlag "t2" (checkForExpiredTimers 6000 sC2).1 = true →
        expiredCount "t2" (runOps (checkForExpiredTimers 6000 sC2).1 [Op.scan 7000]).2 = 0 ∧
        expiredFlag "t2" (runOps (checkForExpiredTimers 6000 sC2).1 [Op.scan 7000]).1 = true) ∧
      expiredCount "t2" (runOps (checkForExpiredTimers 6000 sC2).1 [Op.scan 7000]).2 ≤ 1) :=
  ⟨by decide,
   C3_expired_monotone_and_at_most_once "t2" [Op.scan 7000]
     (checkForExpiredTimers 6000 sC2).1 (by decide)⟩

/-- C4: a timer removed by `endTimer` is gone from both dictionaries, so
over any subsequent sequence of watchdog scans and updates no
`timerExpired` event is emitted for that id, and every subsequent
`getActiveTimers` result excludes it. -/
theorem C4_endTimer_cancels_expiration (tid : String) (call : EndCall) (now0 : Millis)
    (s : PluginState) (act : ActivityRecord) (hid : call.id = some tid)
    (hget : getVal tid s.activeTimers = some act) (ops : List Op) :
    expiredCount tid (runOps (endTimer true now0 call s).2.2 ops).2 = 0 ∧
    ∀ now : Millis,
      ∀ r ∈ getActiveTimers true now (runOps (endTimer true now0 call s).2.2 ops).1,
        r.id ≠ tid := by
  have hm : tid ∉ keysOf ((endTimer true now0 call s).2.2).timerMetadata := by
    rw [endTimer_found call s tid act now0 hid hget]
    exact not_mem_keysOf_delKey tid s.timerMetadata
  have ha : tid ∉ keysOf ((endTimer true now0 call s).2.2).activeTimers := by
    rw [endTimer_found call s tid act now0 hid hget]
    exact not_mem_keysOf_delKey tid s.activeTimers
  obtain ⟨hc, hm2, ha2⟩ := runOps_avoiding tid ops _ hm ha
  refine ⟨hc, ?_⟩
  intro now r hr hEq
  exact ha2 (hEq ▸ getActiveTimers_mem_id hr)

def endC4 : EndCall :=
  { id := some "t2", dismissalPolicy := some "immediate",
    dismissAfterSeconds := none, finalMessage := none }

def attrC2 : ActivityAttributes :=
  { id := "t2", timerType := "cpr", icon := "heart.fill", accentColorHex := "#FF3B30" }

def contentC2 : ContentState :=
  { title := "CPR", subtitle := "", detail := "", endTime := 5000,
    customData := [("patient", "Max")] }

def actC2 : ActivityRecord := { attributes := attrC2, content := contentC2 }

theorem C4_witness :
    getVal "t2" sC2.activeTimers = some actC2 ∧
    (expiredCount "t2" (runOps (endTimer true 1000 endC4 sC2).2.2 [Op.scan 6000]).2 = 0 ∧
      ∀ now : Millis,
        ∀ r ∈ getActiveTimers true now
            (runOps (endTimer true 1000 endC4 sC2).2.2 [Op.scan 6000]).1,
          r.id ≠ "t2") :=
  ⟨by decide,
   C4_endTimer_cancels_expiration "t2" endC4 1000 sC2 actC2 rfl (by decide) [Op.scan 6000]⟩

/-- C1: `updateTimer` with a new `endTime` rewrites the activity's
displayed content (endTime becomes 10000) but never touches
`timerMetadata`, so the watchdog scan at t=6000 — after the old end time
5000 but well before the new end time 10000 — still fires the full
expiration (haptic, sound, `timerExpired`) for `t1`.  The pending
expiration at the old end time is therefore not cancelled. -/
theorem C1_update_leaves_old_expiration_pending :
    (getVal "t1" sC1.activeTimers).map (fun a => a.content.endTime) = some 10000 ∧
    expiredCount "t1" (checkForExpiredTimers 6000 sC1).2 = 1 ∧
    Effect.haptic ∈ (checkForExpiredTimers 6000 sC1).2 := by
  decide

/-- C2: the `timerExpired` event emitted by `checkForExpiredTimers`
carries only `id`, `eventType` and `timestamp`; the record's `type`
("cpr"), `title` ("CPR") and `customData` are known to the registry but
absent from the payload, contradicting the declared `TimerEvent` shape. -/
theorem C2_expired_event_missing_fields :
    (checkForExpiredTimers 6000 sC2).2 =
      [Effect.haptic, Effect.sound,
       Effect.notify "timerExpired"
         { id := "t2", eventType := "expired", type := none, title := none,
           customData := none, timestamp := 6000 }] ∧
    (getVal "t2" sC2.activeTimers).map (fun a => a.attributes.timerType) = some "cpr" ∧
    (getVal "t2" sC2.activeTimers).map (fun a => a.content.title) = some "CPR" := by
  decide

/-- C5: `getActiveTimers` reports `startedAt = endTime − remaining`,
which equals the observation time while the timer runs: the timer
created with endTime 10000 reports `startedAt = 3000` when listed at
t=3000 and `startedAt = 5000` when listed at t=5000 — not a fixed
creation timestamp (the iOS plugin stores no creation time at all). -/
theorem C5_startedAt_is_observation_time :
    (getActiveTimers true 3000 sC5).map (fun r => r.startedAt) = [3000] ∧
    (getActiveTimers true 5000 sC5).map (fun r => r.startedAt) = [5000] := by
  decide

theorem mem_mapVal_snd {α : Type} {f : α → α} {l : List (String × α)} {x : α}
    (h : x ∈ (mapVal f l).map Prod.snd) : ∃ v, x = f v := by
  induction l with
  | nil => cases h
  | cons p rest ih =>
    obtain ⟨k, v⟩ := p
    simp only [mapVal, List.map_cons, List.mem_cons] at h
    rcases h with h | h
    · exact ⟨v, h⟩
    · exact ih h

/-- C6 counterexample: the web `getActiveTimers` does not clamp: for a
timer whose end time (0) lies five seconds in the past at the call
(t=5000) it reports `remainingSeconds = -5`, a negative value,
contradicting `remainingSeconds = max(0, endTime - now)`. -/
theorem C6_web_reports_negative_remaining :
    ((webGetActiveTimers 5000 wC6).1.map fun t => t.remainingSeconds) = [-5] ∧
    (-5 : Int) < 0 := by
  decide

/-- C6 (amended): the iOS `getActiveTimers` reports
`remainingSeconds = ⌊max(0, endTime − now) / 1000⌋`, never negative, with
`expired` exactly when `endTime ≤ now`; the web implementation reports the
unclamped `⌊(endTime − now) / 1000⌋`, which can be negative, with
`expired` exactly when that reported value is `≤ 0`. -/
theorem C6_remaining_seconds_characterization (now : Millis) (s : PluginState)
    (w : WebState) :
    (∀ r ∈ getActiveTimers true now s,
        r.remainingSeconds = Int.fdiv (max 0 (r.endTime - now)) 1000 ∧
        0 ≤ r.remainingSeconds ∧
        (r.expired = true ↔ r.endTime ≤ now)) ∧
    (∀ t ∈ (webGetActiveTimers now w).1,
        t.remainingSeconds = Int.fdiv (t.endTime - now) 1000 ∧
        (t.expired = true ↔ t.remainingSeconds ≤ 0)) := by
  constructor
  · intro r hr
    unfold getActiveTimers at hr
    rw [if_pos rfl] at hr
    rcases List.mem_map.mp hr with ⟨p, hp, hrr⟩
    subst hrr
    refine ⟨rfl, ?_, ?_⟩
    · show 0 ≤ Int.fdiv (max 0 (p.2.content.endTime - now)) 1000
      exact Int.fdiv_nonneg (le_max_left 0 _) (by norm_num)
    · show decide (max 0 (p.2.content.endTime - now) ≤ 0) = true ↔
        p.2.content.endTime ≤ now
      simp [max_le_iff, sub_nonpos]
  · intro t ht
    have ht' : t ∈ (mapVal (webRefreshTimer now) w.timers).map Prod.snd := ht
    rcases mem_mapVal_snd ht' with ⟨v, htv⟩
    subst htv
    refine ⟨rfl, ?_⟩
    show decide (Int.fdiv (v.endTime - now) 1000 ≤ 0) = true ↔ _
    simp [webRefreshTimer]

def attrC5 : ActivityAttributes :=
  { id := "t5", timerType := "generic", icon := "timer", accentColorHex := "#8E8E93" }

def contentC5 : ContentState :=
  { title := "Fluids", subtitle := "", detail := "", endTime := 10000, customData := [] }

def actC5 : ActivityRecord := { attributes := attrC5, content := contentC5 }

def rC6 : ReportedTimer := reportTimer 3000 "t5" actC5

theorem C6_witness :
    rC6 ∈ getActiveTimers true 3000 sC5 ∧
    (rC6.remainingSeconds = Int.fdiv (max 0 (rC6.endTime - 3000)) 1000 ∧
      0 ≤ rC6.remainingSeconds ∧ (rC6.expired = true ↔ rC6.endTime ≤ 3000)) :=
  ⟨by decide,
   (C6_remaining_seconds_characterization 3000 sC5 wC6).1 rC6 (by decide)⟩

/-- C7: `startTimer` rejects exactly when the platform is available and
`id`, `title` or `endTime` is missing from the call; on an unavailable
platform it instead resolves `{success: false, error: ...}` whatever the
call contains; and with all three fields present it resolves with the
success flag of the underlying `Activity.request`. -/
theorem C7_startTimer_result_contract (available : Bool) (requestError : Option String)
    (call : StartCall) (s : PluginState) :
    (available = false →
      (startTimer available requestError call s).1 =
        .resolved false (call.id.getD "") (some "Live Activities require iOS 16.2 or later")) ∧
    (available = true →
      (isStartRejected (startTimer available requestError call s).1 = true ↔
        (call.id = none ∨ call.title = none ∨ call.endTime = none))) ∧
    (available = true → ∀ (tid ttl : String) (e : Millis), call.id = some tid →
      call.title = some ttl → call.endTime = some e →
      (startTimer available requestError call s).1 =
        .resolved requestError.isNone tid requestError) := by
  refine ⟨?_, ?_, ?_⟩
  · intro h
    subst h
    simp [startTimer]
  · intro h
    subst h
    cases hid : call.id with
    | none => simp [startTimer, hid, isStartRejected]
    | some tid =>
      cases htl : call.title with
      | none => simp [startTimer, hid, htl, isStartRejected]
      | some ttl =>
        cases he : call.endTime with
        | none => simp [startTimer, hid, htl, he, isStartRejected]
        | some e =>
          cases hre : requestError with
          | none => simp [startTimer, hid, htl, he, hre, isStartRejected]
          | some err => simp [startTimer, hid, htl, he, hre, isStartRejected]
  · intro h tid ttl e hid htl he
    subst h
    cases hre : requestError with
    | none => simp [startTimer, hid, htl, he, hre]
    | some err => simp [startTimer, hid, htl, he, hre]

def stC7 : StartCall := { basicStart "t7" "x" 0 with title := none }

theorem C7_witness :
    ((true : Bool) = true) ∧
    (isStartRejected (startTimer true none stC7 emptyState).1 = true ↔
      (stC7.id = none ∨ stC7.title = none ∨ stC7.endTime = none)) :=
  ⟨rfl, (C7_startTimer_result_contract true none stC7 emptyState).2.1 rfl⟩

/-- C8: `updateTimer` on a registered id resolves, stores exactly the
per-field merge (supplied fields overwrite, omitted fields keep the
current value, `customData` is replaced as a whole map), leaves every
other id's record and the whole `timerMetadata` dictionary untouched, and
rejects with "Timer not found" for an unregistered id. -/
theorem C8_updateTimer_partial_merge (call : UpdateCall) (s : PluginState)
    (tid : String) (hid : call.id = some tid) :
    (∀ act : ActivityRecord, getVal tid s.activeTimers = some act →
      (updateTimer true call s).1 = .resolved ∧
      getVal tid ((updateTimer true call s).2).activeTimers =
        some { act with content := mergedContent call act.content } ∧
      (∀ k : String, k ≠ tid →
        getVal k ((updateTimer true call s).2).activeTimers = getVal k s.activeTimers) ∧
      ((updateTimer true call s).2).timerMetadata = s.timerMetadata) ∧
    (getVal tid s.activeTimers = none →
      updateTimer true call s = (.rejected ("Timer not found: " ++ tid), s)) := by
  constructor
  · intro act hget
    rw [updateTimer_found call s tid act hid hget]
    refine ⟨rfl, ?_, ?_, rfl⟩
    · exact getVal_setKey_self tid _ s.activeTimers
    · intro k hk
      exact getVal_setKey_ne (fun hh => hk hh.symm) _ s.activeTimers
  · intro hget
    exact updateTimer_notFound call s tid hid hget

def updC8 : UpdateCall :=
  { id := some "t2", title := none, subtitle := some "new-sub", detail := none,
    endTime := none, customData := none }

theorem C8_witness :
    updC8.id = some "t2" ∧ getVal "t2" sC2.activeTimers = some actC2 ∧
    ((updateTimer true updC8 sC2).1 = .resolved ∧
      getVal "t2" ((updateTimer true updC8 sC2).2).activeTimers =
        some { actC2 with content := mergedContent updC8 actC2.content } ∧
      (∀ k : String, k ≠ "t2" →
        getVal k ((updateTimer true updC8 sC2).2).activeTimers = getVal k sC2.activeTimers) ∧
      ((updateTimer true updC8 sC2).2).timerMetadata = sC2.timerMetadata) :=
  ⟨rfl, by decide,
   (C8_updateTimer_partial_merge updC8 sC2 "t2" rfl).1 actC2 (by decide)⟩

/-- C9: `endAllTimers` resolves with the number of previously registered
activities and clears both dictionaries and the check timer; it never
rejects (on an unavailable platform it resolves 0 and changes nothing);
on an already-empty registry it resolves 0, leaves the (empty) registry
as it was and leaves the check timer stopped.  The web `endAllTimers`
behaves the same way on its maps. -/
theorem C9_endAllTimers_contract (s : PluginState) (w : WebState) :
    (endAllTimers true s).1 = s.activeTimers.length ∧
    (endAllTimers true s).2 =
      { activeTimers := [], timerMetadata := [], watchdogRunning := false } ∧
    (s.activeTimers = [] → s.timerMetadata = [] →
      (endAllTimers true s).1 = 0 ∧
      (endAllTimers true s).2 = { s with watchdogRunning := false }) ∧
    endAllTimers false s = (0, s) ∧
    (webEndAllTimers w).1 = w.timers.length ∧
    (webEndAllTimers w).2 = { timers := [], intervals := [] } := by
  obtain ⟨a, m, wd⟩ := s
  refine ⟨rfl, rfl, ?_, rfl, rfl, rfl⟩
  rintro rfl rfl
  exact ⟨rfl, rfl⟩

theorem C9_witness :
    emptyState.activeTimers = [] ∧ emptyState.timerMetadata = [] ∧
    ((endAllTimers true emptyState).1 = 0 ∧
      (endAllTimers true emptyState).2 = { emptyState with watchdogRunning := false }) :=
  ⟨rfl, rfl, (C9_endAllTimers_contract emptyState ⟨[], []⟩).2.2.1 rfl rfl⟩

/-- The metadata stored by a successful field parse in `startTimer`:
each flag is the call's value when supplied, and the `?? true` default
when omitted. -/
def storedMeta (call : StartCall) (e : Millis) : TimerMetadata :=
  { endTime := e, hapticOnExpire := call.hapticOnExpire.getD true,
    soundOnExpire := call.soundOnExpire.getD true, hasExpired := false }

/-- C10: a `startTimer` call stores metadata whose flags are the `?? true`
defaults of the call's values; whichever of `hapticOnExpire` /
`soundOnExpire` the call omits is stored as true, so any watchdog scan at
or after the end time dispatches the corresponding haptic or sound
request (each flag independently, regardless of the other flag). -/
theorem C10_haptic_sound_default_on (call : StartCall) (s : PluginState)
    (requestError : Option String) (tid ttl : String) (e : Millis)
    (hid : call.id = some tid) (htl : call.title = some ttl)
    (he : call.endTime = some e) :
    getVal tid ((startTimer true requestError call s).2).timerMetadata =
      some (storedMeta call e) ∧
    (call.hapticOnExpire = none →
      (storedMeta call e).hapticOnExpire = true ∧
      ∀ now : Millis, e ≤ now →
        Effect.haptic ∈ (checkForExpiredTimers now (startTimer true requestError call s).2).2) ∧
    (call.soundOnExpire = none →
      (storedMeta call e).soundOnExpire = true ∧
      ∀ now : Millis, e ≤ now →
        Effect.sound ∈ (checkForExpiredTimers now (startTimer true requestError call s).2).2) := by
  have hmeta : ((startTimer true requestError call s).2).timerMetadata =
      setKey tid (storedMeta call e) s.timerMetadata := by
    cases hre : requestError with
    | none => simp [startTimer, hid, htl, he, hre, storedMeta]
    | some err => simp [startTimer, hid, htl, he, hre, storedMeta]
  have hmem : (tid, storedMeta call e) ∈
      ((startTimer true requestError call s).2).timerMetadata := by
    rw [hmeta]
    exact mem_setKey_self tid _ s.timerMetadata
  refine ⟨by rw [hmeta]; exact getVal_setKey_self tid _ s.timerMetadata, ?_, ?_⟩
  · intro hh
    have hflag : (storedMeta call e).hapticOnExpire = true := by
      simp [storedMeta, hh]
    refine ⟨hflag, ?_⟩
    intro now hnow
    have hfresh : freshlyExpired now (storedMeta call e) = true := by
      simp [freshlyExpired, storedMeta, hnow]
    rw [scan_effects]
    exact allEffects_mem hmem (by simp [expireEffects, hfresh, hflag])
  · intro hsnd
    have hflag : (storedMeta call e).soundOnExpire = true := by
      simp [storedMeta, hsnd]
    refine ⟨hflag, ?_⟩
    intro now hnow
    have hfresh : freshlyExpired now (storedMeta call e) = true := by
      simp [freshlyExpired, storedMeta, hnow]
    rw [scan_effects]
    exact allEffects_mem hmem (by simp [expireEffects, hfresh, hflag])

/-- A call omitting only `hapticOnExpire` (sound explicitly disabled):
the single-omission case. -/
def stC10 : StartCall := { basicStart "tw" "W" 100 with soundOnExpire := some false }

theorem C10_witness :
    stC10.id = some "tw" ∧ stC10.title = some "W" ∧ stC10.endTime = some 100 ∧
    stC10.hapticOnExpire = none ∧
    (getVal "tw" ((startTimer true none stC10 emptyState).2).timerMetadata =
        some (storedMeta stC10 100) ∧
      ((storedMeta stC10 100).hapticOnExpire = true ∧
        ∀ now : Millis, 100 ≤ now →
          Effect.haptic ∈ (checkForExpiredTimers now (startTimer true none stC10 emptyState).2).2)) :=
  ⟨rfl, rfl, rfl, rfl,
   ⟨(C10_haptic_sound_default_on stC10 emptyState none "tw" "W" 100 rfl rfl rfl).1,
    (C10_haptic_sound_default_on stC10 emptyState none "tw" "W" 100 rfl rfl rfl).2.1 rfl⟩⟩

end LiveActivities
